import Mathlib

/-!
Verification of the pure state-transition engine of a side-scrolling
obstacle-avoidance game (bird, gravity, flap input, scheduled pipes).

Numeric model: the implementation computes with IEEE doubles; here every
number is an exact rational (`ℚ`), the standard exact idealisation, and
PRNG seeds are integers (`ℤ`), with the remainder operator modelled by
`Int.tmod` (truncated remainder, the semantics of the implementation
language's `%` on integers).  Strings are modelled by their character
lists where the parser needs them.
-/

namespace Game

/-! ### Constants -/

def CANVAS_WIDTH : ℚ := 600
def CANVAS_HEIGHT : ℚ := 400
def BIRD_WIDTH : ℚ := 42
def BIRD_HEIGHT : ℚ := 30
def PIPE_WIDTH : ℚ := 50
def PIPE_SPEED_PX_S : ℚ := 150
def TICK_RATE_MS : ℚ := 16
def GRAVITY : ℚ := 1200
def FLAP_VELOCITY : ℚ := -350
def TERMINAL_VEL : ℚ := 600
def BOUNCE_MIN : ℚ := 220
def BOUNCE_MAX : ℚ := 420

/-- The time step per tick, in seconds (`TICK_RATE_MS / 1000`). -/
def dt : ℚ := TICK_RATE_MS / 1000

/-! ### PRNG (linear congruential generator) -/

namespace RNG

def m : ℤ := 0x80000000
def a : ℤ := 1103515245
def c : ℤ := 12345

/-- Compute next hash value from given seed: `(a * seed + c) % m`. -/
def hash (seed : ℤ) : ℤ := Int.tmod (a * seed + c) m

/-- Scale hash to the range [-1, 1]: `(2 * hash) / (m - 1) - 1`. -/
def scale (h : ℤ) : ℚ := 2 * (h : ℚ) / ((m : ℚ) - 1) - 1

end RNG

/-- Return random number in [0,1] and updated seed. -/
def rand01 (seed : ℤ) : ℤ × ℚ :=
  let h := RNG.hash seed
  (h, (RNG.scale h + 1) / 2)

/-- Return random number in [lo, hi] and updated seed. -/
def randInRange (seed : ℤ) (lo hi : ℚ) : ℤ × ℚ :=
  let r := rand01 seed
  (r.1, lo + r.2 * (hi - lo))

/-! ### Data types -/

/-- A 2D vector (used for positions). -/
structure Vec where
  x : ℚ
  y : ℚ
deriving DecidableEq

/-- The bird entity: center position and vertical velocity (+ = downward). -/
structure Bird where
  pos : Vec
  velY : ℚ
deriving DecidableEq

/-- A pipe obstacle with a vertical gap. -/
structure Pipe where
  id : ℤ
  x : ℚ
  gapY : ℚ
  gapH : ℚ
  passed : Bool
deriving DecidableEq

/-- A scheduled pipe spawn, as consumed by the spawn reducer. -/
structure SpawnSpec where
  gapY : ℚ
  gapH : ℚ
  timeMs : ℚ
deriving DecidableEq

/-- Shared type for all rectangular hitboxes. -/
structure Hitbox where
  left : ℚ
  right : ℚ
  top : ℚ
  bottom : ℚ
deriving DecidableEq

/-- Result of one physics+collision step. -/
structure CollisionOutcome where
  y : ℚ
  vy : ℚ
  seed : ℤ
  collided : Bool
deriving DecidableEq

/-- The path of the bird during a single run. -/
abbrev Trace := List Vec

/-- The collection of all past paths. -/
abbrev GhostList := List Trace

/-- The main immutable game state, updated each tick. -/
structure State where
  timeMs : ℚ
  gameEnd : Bool
  bird : Bird
  pipes : List Pipe
  lives : ℤ
  score : ℤ
  nextId : ℤ
  seed : ℤ
  totalPipesPlanned : ℤ
  ghosts : GhostList
  trace : Trace
deriving DecidableEq

/-! ### Collision detection utilities -/

/-- Bird's hitbox computed from its center (x, y). -/
def birdHitbox (x y : ℚ) : Hitbox :=
  { left := x - BIRD_WIDTH / 2
    right := x + BIRD_WIDTH / 2
    top := y - BIRD_HEIGHT / 2
    bottom := y + BIRD_HEIGHT / 2 }

/-- Top pipe hitbox (from screen top to gap). -/
def pipeTopHitbox (p : Pipe) : Hitbox :=
  { left := p.x
    right := p.x + PIPE_WIDTH
    top := 0
    bottom := p.gapY - p.gapH / 2 }

/-- Bottom pipe hitbox (from gap to screen bottom). -/
def pipeBottomHitbox (p : Pipe) : Hitbox :=
  { left := p.x
    right := p.x + PIPE_WIDTH
    top := p.gapY + p.gapH / 2
    bottom := CANVAS_HEIGHT }

/-- Check overlap between two hitboxes (collision detection). -/
def overlaps (a b : Hitbox) : Bool :=
  decide (a.left < b.right) && decide (a.right > b.left) &&
  decide (a.top < b.bottom) && decide (a.bottom > b.top)

/-! ### Collision handling and random bounce

The body of `handleCollisions` is split into named sub-expressions, each
mirroring one local binding of the source function. -/

/-- Gravity applied to the velocity, clamped to the terminal velocity. -/
def clampedVy (s : State) : ℚ :=
  max (-TERMINAL_VEL) (min TERMINAL_VEL (s.bird.velY + GRAVITY * dt))

/-- Predicted next vertical position before clamping. -/
def yNextRaw (s : State) : ℚ := s.bird.pos.y + clampedVy s * dt

/-- Lowest admissible bird center y. -/
def minY : ℚ := BIRD_HEIGHT / 2

/-- Highest admissible bird center y. -/
def maxY : ℚ := CANVAS_HEIGHT - BIRD_HEIGHT / 2

/-- Predicted next vertical position clamped within screen bounds. -/
def yClamped (s : State) : ℚ := max minY (min maxY (yNextRaw s))

/-- Whether the unclamped next position exceeds the top screen bound. -/
def hitTopB (s : State) : Bool := decide (yNextRaw s < minY)

/-- Whether the unclamped next position exceeds the bottom screen bound. -/
def hitBottomB (s : State) : Bool := decide (yNextRaw s > maxY)

/-- Whether the bird hitbox at the clamped position overlaps some top pipe. -/
def hitPipeTopB (s : State) : Bool :=
  s.pipes.any fun p => overlaps (birdHitbox s.bird.pos.x (yClamped s)) (pipeTopHitbox p)

/-- Whether the bird hitbox at the clamped position overlaps some bottom pipe. -/
def hitPipeBottomB (s : State) : Bool :=
  s.pipes.any fun p => overlaps (birdHitbox s.bird.pos.x (yClamped s)) (pipeBottomHitbox p)

/-- Disjunction of the four collision conditions. -/
def collidedB (s : State) : Bool :=
  hitTopB s || hitBottomB s || hitPipeTopB s || hitPipeBottomB s

/-- Random bounce: velocity of magnitude drawn from
[BOUNCE_MIN, BOUNCE_MAX] with sign `dir`, paired with the advanced seed. -/
def bounce (s : State) (dir : ℚ) : ℚ × ℤ :=
  let r := randInRange s.seed BOUNCE_MIN BOUNCE_MAX
  (dir * |r.2|, r.1)

/-- Velocity in the no-collision case: zeroed when resting exactly at a
clamped boundary and still moving into it, else passed through. -/
def noHitVy (s : State) : ℚ :=
  if (yClamped s = minY ∧ clampedVy s < 0) ∨ (yClamped s = maxY ∧ clampedVy s > 0)
    then 0 else clampedVy s

/-- Collision handling and random bounce: one physics step. -/
def handleCollisions (s : State) : CollisionOutcome :=
  if hitTopB s then
    { y := minY, vy := (bounce s 1).1, seed := (bounce s 1).2, collided := collidedB s }
  else if hitBottomB s then
    { y := maxY, vy := (bounce s (-1)).1, seed := (bounce s (-1)).2, collided := collidedB s }
  else if hitPipeTopB s then
    { y := min (yClamped s + 1) maxY, vy := (bounce s 1).1, seed := (bounce s 1).2,
      collided := collidedB s }
  else if hitPipeBottomB s then
    { y := max (yClamped s - 1) minY, vy := (bounce s (-1)).1, seed := (bounce s (-1)).2,
      collided := collidedB s }
  else
    { y := yClamped s, vy := noHitVy s, seed := s.seed, collided := collidedB s }

/-! ### Reducers -/

/-- A pure reducer that generates one pipe from one schedule row. -/
def spawnPipe (spec : SpawnSpec) (s : State) : State :=
  let p : Pipe :=
    { id := s.nextId, x := CANVAS_WIDTH, gapY := spec.gapY, gapH := spec.gapH, passed := false }
  { s with nextId := s.nextId + 1, pipes := s.pipes ++ [p] }

/-- Advance one pipe to the left by one tick's travel. -/
def movePipe (p : Pipe) : Pipe := { p with x := p.x - PIPE_SPEED_PX_S * dt }

/-- Pipes after moving left and culling those past the left boundary. -/
def keptPipes (s : State) : List Pipe :=
  (s.pipes.map movePipe).filter fun p => decide (p.x > -PIPE_WIDTH)

/-- The bird's left edge, used for the passed check. -/
def birdLeft (s : State) : ℚ := s.bird.pos.x - BIRD_WIDTH / 2

/-- Mark a pipe as passed when its right edge is left of the bird's left edge. -/
def markPassed (bl : ℚ) (p : Pipe) : Pipe :=
  if p.passed || decide (p.x + PIPE_WIDTH < bl) then { p with passed := true } else p

/-- Pipes after moving, culling and marking newly passed ones. -/
def updatedPipes (s : State) : List Pipe :=
  (keptPipes s).map (markPassed (birdLeft s))

/-- Ids of the pipes already passed before this tick. -/
def prevPassedIds (s : State) : List ℤ :=
  (s.pipes.filter fun p => p.passed).map Pipe.id

/-- How many pipes became passed this tick. -/
def newlyPassedCount (s : State) : ℕ :=
  ((updatedPipes s).filter fun p => p.passed && !((prevPassedIds s).contains p.id)).length

/-- One time step: gravity, collision/bounce, pipe motion and culling,
scoring, lives, termination, trace recording.  No-op once the game ended. -/
def tick (s : State) : State :=
  if s.gameEnd then s
  else
    let col := handleCollisions s
    let nextLives := if col.collided then max 0 (s.lives - 1) else s.lives
    { s with
      timeMs := s.timeMs + TICK_RATE_MS
      bird := { pos := { x := s.bird.pos.x, y := col.y }, velY := col.vy }
      pipes := updatedPipes s
      seed := col.seed
      lives := nextLives
      gameEnd := decide (nextLives ≤ 0) ||
        (decide (s.nextId - 1 ≥ s.totalPipesPlanned) && decide ((updatedPipes s).length = 0))
      score := s.score + newlyPassedCount s
      trace := s.trace ++ [{ x := s.bird.pos.x, y := col.y }] }

/-- Handles user input: gives the bird an upward boost. -/
def flapR (s : State) : State :=
  { s with bird := { s.bird with velY := FLAP_VELOCITY } }

/-! ### The state fold (engine orchestration)

The engine merges three event sources (clock ticks, flap inputs, scheduled
spawns) into one time-ordered sequence of reducers and folds them over the
initial state with `scan`. -/

/-- One merged engine event: a clock tick, a flap input, or a scheduled spawn. -/
inductive Event where
  | tickE : Event
  | flapE : Event
  | spawnE : SpawnSpec → Event
deriving DecidableEq

/-- Apply the reducer selected by one event. -/
def applyEvent (s : State) : Event → State
  | .tickE => tick s
  | .flapE => flapR s
  | .spawnE spec => spawnPipe spec s

/-- The sequence of successive states produced by folding an event list
over a starting state (the output of the scan). -/
def stateSeq (s : State) (es : List Event) : List State :=
  es.scanl applyEvent s

/-- The initial state of a run: elapsed time 0, bird 30% from the left and
vertically centered with no velocity, no pipes, 3 lives, score 0, next id 1,
with the seed, planned pipe count and ghost list injected at run start. -/
def mkInitial (seed totalPlanned : ℤ) (ghosts : GhostList) : State :=
  { timeMs := 0
    gameEnd := false
    bird := { pos := { x := CANVAS_WIDTH * (3 / 10), y := CANVAS_HEIGHT / 2 }, velY := 0 }
    pipes := []
    lives := 3
    score := 0
    nextId := 1
    seed := seed
    totalPipesPlanned := totalPlanned
    ghosts := ghosts
    trace := [] }

/-- States reachable from some run's initial state by the three reducers.
The initial seed is drawn from [0, 0x7fffffff), as at run start. -/
inductive Reachable : State → Prop where
  | init (seed totalPlanned : ℤ) (ghosts : GhostList) (h0 : 0 ≤ seed)
      (h1 : seed < 0x7fffffff) : Reachable (mkInitial seed totalPlanned ghosts)
  | tickStep {s : State} : Reachable s → Reachable (tick s)
  | flapStep {s : State} : Reachable s → Reachable (flapR s)
  | spawnStep (spec : SpawnSpec) {s : State} : Reachable s → Reachable (spawnPipe spec s)

/-! ### First-match view of the collision conditions -/

/-- The four collision condition kinds. -/
inductive HitKind where
  | top : HitKind
  | bottom : HitKind
  | pipeTop : HitKind
  | pipeBottom : HitKind
deriving DecidableEq

/-- The collision condition of each kind, as tested in the step. -/
def hitCond (s : State) : HitKind → Bool
  | .top => hitTopB s
  | .bottom => hitBottomB s
  | .pipeTop => hitPipeTopB s
  | .pipeBottom => hitPipeBottomB s

/-- The fixed order in which the four collision conditions are checked. -/
def hitOrder : List HitKind := [.top, .bottom, .pipeTop, .pipeBottom]

/-- The first collision condition, in the fixed order, that holds. -/
def firstHit (s : State) : Option HitKind := hitOrder.find? (hitCond s)

/-- The snap position associated with each collision kind. -/
def hitY (s : State) : HitKind → ℚ
  | .top => minY
  | .bottom => maxY
  | .pipeTop => min (yClamped s + 1) maxY
  | .pipeBottom => max (yClamped s - 1) minY

/-- The bounce sign for each collision kind: away from the surface hit. -/
def hitDir : HitKind → ℚ
  | .top => 1
  | .bottom => -1
  | .pipeTop => 1
  | .pipeBottom => -1

/-! ### Schedule (CSV) parsing

Strings are modelled as lists of characters.  The string-to-number
coercion of the implementation language is modelled on its decimal
fragment, with `none` standing for the not-a-number value that malformed
fields produce. -/

/-- Whitespace characters removed by trimming. -/
def isWS (c : Char) : Bool :=
  c = ' ' || c = '\t' || c = '\n' || c = '\r'

/-- Remove leading and trailing whitespace. -/
def jsTrim (cs : List Char) : List Char :=
  ((cs.dropWhile isWS).reverse.dropWhile isWS).reverse

/-- Split a character list on a separator character. -/
def splitOnChar (sep : Char) : List Char → List (List Char)
  | [] => [[]]
  | c :: rest =>
    match splitOnChar sep rest with
    | [] => [[c]]
    | h :: t => if c = sep then [] :: h :: t else (c :: h) :: t

/-- Drop one trailing carriage return, so that splitting on the newline
character agrees with splitting on the optional-CR newline pattern. -/
def stripCR (cs : List Char) : List Char :=
  if cs.getLast? = some '\r' then cs.dropLast else cs

/-- Split into lines (newline with optional preceding carriage return). -/
def splitLines (cs : List Char) : List (List Char) :=
  (splitOnChar '\n' cs).map stripCR

/-- Decimal digit test. -/
def isDigitCh (c : Char) : Bool := decide ('0' ≤ c) && decide (c ≤ '9')

/-- Value of a digit string (most significant first). -/
def digitsToNat (cs : List Char) : ℕ :=
  cs.foldl (fun acc c => 10 * acc + (c.toNat - 48)) 0

/-- Unsigned decimal numeral: digits with at most one point, at least one
digit overall; `none` models the not-a-number result. -/
def jsNumberBody (body : List Char) : Option ℚ :=
  match splitOnChar '.' body with
  | [intPart] =>
    if intPart ≠ [] && intPart.all isDigitCh then some (digitsToNat intPart : ℚ) else none
  | [intPart, fracPart] =>
    if (intPart ≠ [] || fracPart ≠ []) && intPart.all isDigitCh && fracPart.all isDigitCh then
      some ((digitsToNat intPart : ℚ) + (digitsToNat fracPart : ℚ) / (10 ^ fracPart.length : ℚ))
    else none
  | _ => none

/-- Model of the implementation language's string-to-number coercion,
restricted to optionally signed decimal numerals: trims whitespace, maps
the empty string to 0, and maps every other malformed string to the
not-a-number value (`none`). -/
def jsNumber (cs0 : List Char) : Option ℚ :=
  let cs := jsTrim cs0
  if cs = [] then some 0
  else
    match cs with
    | '-' :: body => (jsNumberBody body).map (fun q => -q)
    | '+' :: body => jsNumberBody body
    | body => jsNumberBody body

/-- Multiplication propagating the not-a-number value. -/
def jsMul (a : Option ℚ) (k : ℚ) : Option ℚ := a.map (fun q => q * k)

/-- A parsed schedule row; fields are numbers-or-NaN. -/
structure SpawnSpecJs where
  gapY : Option ℚ
  gapH : Option ℚ
  timeMs : Option ℚ
deriving DecidableEq

/-- The i-th comma-separated field coerced to a number; a missing field is
the undefined value, which coerces to not-a-number. -/
def fieldAt (fields : List (List Char)) (i : ℕ) : Option ℚ :=
  match fields.get? i with
  | none => none
  | some f => jsNumber f

/-- One schedule row: normalized gap center and height scaled by the
canvas height, and the spawn time converted from seconds to milliseconds. -/
def lineToSpec (line : List Char) : SpawnSpecJs :=
  let fields := splitOnChar ',' line
  { gapY := jsMul (fieldAt fields 0) CANVAS_HEIGHT
    gapH := jsMul (fieldAt fields 1) CANVAS_HEIGHT
    timeMs := jsMul (fieldAt fields 2) 1000 }

/-- Parse schedule text into an array of parsed rows: trim, split into
lines, skip the header row, map each remaining line to one row. -/
def parseMapCsv (csv : List Char) : List SpawnSpecJs :=
  ((splitLines (jsTrim csv)).drop 1).map lineToSpec

end Game

open Game

/-! ### Shared lemmas about the PRNG -/

lemma hash_nonneg {seed : ℤ} (h : 0 ≤ seed) : 0 ≤ RNG.hash seed := by
  have ha : (0 : ℤ) ≤ RNG.a * seed + RNG.c := by
    have : (0 : ℤ) ≤ RNG.a * seed := by
      have : (0 : ℤ) ≤ RNG.a := by norm_num [RNG.a]
      exact mul_nonneg this h
    have hc : (0 : ℤ) ≤ RNG.c := by norm_num [RNG.c]
    linarith
  exact Int.tmod_nonneg _ ha

lemma hash_lt (seed : ℤ) : RNG.hash seed < RNG.m :=
  Int.tmod_lt_of_pos _ (by norm_num [RNG.m])

lemma rand01_bounds {seed : ℤ} (h : 0 ≤ seed) :
    0 ≤ (rand01 seed).2 ∧ (rand01 seed).2 ≤ 1 := by
  have h0 : (0 : ℚ) ≤ (RNG.hash seed : ℚ) := by exact_mod_cast hash_nonneg h
  have h1 : (RNG.hash seed : ℚ) ≤ 2147483647 := by
    have := hash_lt seed
    have : RNG.hash seed ≤ 2147483647 := by
      have hm : RNG.m = 2147483648 := by norm_num [RNG.m]
      omega
    exact_mod_cast this
  have hval : (rand01 seed).2 = (RNG.hash seed : ℚ) / 2147483647 := by
    show (RNG.scale (RNG.hash seed) + 1) / 2 = _
    rw [RNG.scale]
    have hm : ((RNG.m : ℤ) : ℚ) = 2147483648 := by norm_num [RNG.m]
    rw [hm]
    ring
  rw [hval]
  constructor
  · positivity
  · rw [div_le_one (by norm_num)]
    exact h1

lemma randInRange_bounds {seed : ℤ} (h : 0 ≤ seed) {lo hi : ℚ} (hlh : lo ≤ hi) :
    lo ≤ (randInRange seed lo hi).2 ∧ (randInRange seed lo hi).2 ≤ hi := by
  obtain ⟨h0, h1⟩ := rand01_bounds h
  show lo ≤ lo + (rand01 seed).2 * (hi - lo) ∧ lo + (rand01 seed).2 * (hi - lo) ≤ hi
  constructor
  · nlinarith
  · nlinarith

lemma bounce_mag_bounds {s : State} (h : 0 ≤ s.seed) :
    BOUNCE_MIN ≤ |(randInRange s.seed BOUNCE_MIN BOUNCE_MAX).2| ∧
    |(randInRange s.seed BOUNCE_MIN BOUNCE_MAX).2| ≤ BOUNCE_MAX := by
  obtain ⟨hl, hr⟩ := randInRange_bounds h (show BOUNCE_MIN ≤ BOUNCE_MAX by
    norm_num [BOUNCE_MIN, BOUNCE_MAX])
  have h0 : 0 ≤ (randInRange s.seed BOUNCE_MIN BOUNCE_MAX).2 :=
    le_trans (by norm_num [BOUNCE_MIN]) hl
  rw [abs_of_nonneg h0]
  exact ⟨hl, hr⟩

/-! ### Shared lemmas about the collision step -/

lemma handleCollisions_top {s : State} (h1 : hitTopB s = true) :
    handleCollisions s =
      { y := minY, vy := (bounce s 1).1, seed := (bounce s 1).2, collided := collidedB s } := by
  simp [handleCollisions, h1]

lemma handleCollisions_bottom {s : State} (h1 : hitTopB s = false) (h2 : hitBottomB s = true) :
    handleCollisions s =
      { y := maxY, vy := (bounce s (-1)).1, seed := (bounce s (-1)).2,
        collided := collidedB s } := by
  simp [handleCollisions, h1, h2]

lemma handleCollisions_pipeTop {s : State} (h1 : hitTopB s = false) (h2 : hitBottomB s = false)
    (h3 : hitPipeTopB s = true) :
    handleCollisions s =
      { y := min (yClamped s + 1) maxY, vy := (bounce s 1).1, seed := (bounce s 1).2,
        collided := collidedB s } := by
  simp [handleCollisions, h1, h2, h3]

lemma handleCollisions_pipeBottom {s : State} (h1 : hitTopB s = false)
    (h2 : hitBottomB s = false) (h3 : hitPipeTopB s = false) (h4 : hitPipeBottomB s = true) :
    handleCollisions s =
      { y := max (yClamped s - 1) minY, vy := (bounce s (-1)).1, seed := (bounce s (-1)).2,
        collided := collidedB s } := by
  simp [handleCollisions, h1, h2, h3, h4]

lemma handleCollisions_none {s : State} (h1 : hitTopB s = false) (h2 : hitBottomB s = false)
    (h3 : hitPipeTopB s = false) (h4 : hitPipeBottomB s = false) :
    handleCollisions s =
      { y := yClamped s, vy := noHitVy s, seed := s.seed, collided := collidedB s } := by
  simp [handleCollisions, h1, h2, h3, h4]

lemma bounce_fst (s : State) (dir : ℚ) :
    (bounce s dir).1 = dir * |(randInRange s.seed BOUNCE_MIN BOUNCE_MAX).2| := rfl

lemma bounce_snd (s : State) (dir : ℚ) : (bounce s dir).2 = RNG.hash s.seed := rfl

lemma firstHit_top {s : State} (h1 : hitTopB s = true) : firstHit s = some .top := by
  simp [firstHit, hitOrder, List.find?, hitCond, h1]

lemma firstHit_bottom {s : State} (h1 : hitTopB s = false) (h2 : hitBottomB s = true) :
    firstHit s = some .bottom := by
  simp [firstHit, hitOrder, List.find?, hitCond, h1, h2]

lemma firstHit_pipeTop {s : State} (h1 : hitTopB s = false) (h2 : hitBottomB s = false)
    (h3 : hitPipeTopB s = true) : firstHit s = some .pipeTop := by
  simp [firstHit, hitOrder, List.find?, hitCond, h1, h2, h3]

lemma firstHit_pipeBottom {s : State} (h1 : hitTopB s = false) (h2 : hitBottomB s = false)
    (h3 : hitPipeTopB s = false) (h4 : hitPipeBottomB s = true) :
    firstHit s = some .pipeBottom := by
  simp [firstHit, hitOrder, List.find?, hitCond, h1, h2, h3, h4]

lemma firstHit_none {s : State} (h1 : hitTopB s = false) (h2 : hitBottomB s = false)
    (h3 : hitPipeTopB s = false) (h4 : hitPipeBottomB s = false) : firstHit s = none := by
  simp [firstHit, hitOrder, List.find?, hitCond, h1, h2, h3, h4]

/-! ### Shared lemmas about the tick reducer -/

lemma tick_of_ended {s : State} (h : s.gameEnd = true) : tick s = s := by
  simp [tick, h]

lemma tick_seed_eq {s : State} (h : s.gameEnd = false) :
    (tick s).seed = (handleCollisions s).seed := by
  simp [tick, h]

lemma tick_velY_eq {s : State} (h : s.gameEnd = false) :
    (tick s).bird.velY = (handleCollisions s).vy := by
  simp [tick, h]

lemma tick_pipes_eq {s : State} (h : s.gameEnd = false) :
    (tick s).pipes = updatedPipes s := by
  simp [tick, h]

lemma tick_score_eq {s : State} (h : s.gameEnd = false) :
    (tick s).score = s.score + newlyPassedCount s := by
  simp [tick, h]

/-- C1: Determinism — for every fixed initial state (hence fixed seed) and
every fixed finite sequence of reducer events applied in the same order,
folding the reducers twice yields identical state sequences, bounce
directions and magnitudes included. -/
theorem fold_determinism (s₁ s₂ : State) (es₁ es₂ : List Event)
    (hs : s₁ = s₂) (he : es₁ = es₂) : stateSeq s₁ es₁ = stateSeq s₂ es₂ := by
  subst hs
  subst he
  rfl

theorem fold_determinism_witness :
    stateSeq (mkInitial 7 2 []) [Event.tickE, Event.flapE] =
      stateSeq (mkInitial 7 2 []) [Event.tickE, Event.flapE] :=
  fold_determinism (mkInitial 7 2 []) (mkInitial 7 2 []) [Event.tickE, Event.flapE]
    [Event.tickE, Event.flapE] rfl rfl

/-- A concrete ended state, used for the terminal-state claims. -/
def endedState : State := { mkInitial 7 2 [] with gameEnd := true }

/-- A concrete spawn specification. -/
def specC : SpawnSpec := { gapY := 200, gapH := 100, timeMs := 1000 }

/-- C2 counterexample: on a state with gameEnd true, the spawn reducer is
not the identity — it appends a pipe and increments the id counter. -/
theorem terminal_fixed_point_cex :
    endedState.gameEnd = true ∧ spawnPipe specC endedState ≠ endedState := by
  refine ⟨rfl, fun h => ?_⟩
  have h2 := congrArg State.nextId h
  simp only [spawnPipe, endedState, mkInitial] at h2
  norm_num at h2

/-- C2 (amended): once gameEnd is true, the tick reducer is the identity;
the flap and spawn reducers do not test gameEnd and can change the state. -/
theorem terminal_tick_fixed_point (s : State) (h : s.gameEnd = true) : tick s = s :=
  tick_of_ended h

theorem terminal_tick_fixed_point_witness :
    endedState.gameEnd = true ∧ tick endedState = endedState :=
  ⟨rfl, terminal_tick_fixed_point endedState rfl⟩

/-- C10: the PRNG seed advances only on collision — a collision-free tick
of a non-ended state leaves the seed unchanged, and a colliding tick
advances it by exactly one hash step. -/
theorem seed_frame_effect (s : State) (h : s.gameEnd = false) :
    (tick s).seed = if collidedB s then RNG.hash s.seed else s.seed := by
  rw [tick_seed_eq h]
  cases h1 : hitTopB s with
  | true =>
    rw [handleCollisions_top h1, show collidedB s = true by simp [collidedB, h1]]
    simp [bounce_snd]
  | false =>
    cases h2 : hitBottomB s with
    | true =>
      rw [handleCollisions_bottom h1 h2, show collidedB s = true by simp [collidedB, h2]]
      simp [bounce_snd]
    | false =>
      cases h3 : hitPipeTopB s with
      | true =>
        rw [handleCollisions_pipeTop h1 h2 h3,
          show collidedB s = true by simp [collidedB, h3]]
        simp [bounce_snd]
      | false =>
        cases h4 : hitPipeBottomB s with
        | true =>
          rw [handleCollisions_pipeBottom h1 h2 h3 h4,
            show collidedB s = true by simp [collidedB, h4]]
          simp [bounce_snd]
        | false =>
          rw [handleCollisions_none h1 h2 h3 h4,
            show collidedB s = false by simp [collidedB, h1, h2, h3, h4]]
          simp

/-- C8 counterexample: at the negative seed -1 the hash is negative (the
truncated remainder keeps the dividend's sign), so value01 falls below 0,
outside the claimed interval [0, 1]. -/
theorem prng_contract_cex : RNG.hash (-1) < 0 ∧ (rand01 (-1)).2 < 0 := by
  have hh : RNG.hash (-1) = -1103502900 := by decide
  constructor
  · rw [hh]
    norm_num
  · show (RNG.scale (RNG.hash (-1)) + 1) / 2 < 0
    rw [hh, RNG.scale]
    norm_num [RNG.m]

/-- C8 (amended): for every nonnegative seed — the only seeds the engine
produces — hash(seed) is (a*seed + c) taken modulo m by the number type's
remainder, and rand01 returns the pair of the advanced seed hash(seed) and
value01 = (scale(hash(seed)) + 1)/2, which lies in [0, 1]; being a pure
function, the same seed always yields the same pair. -/
theorem prng_contract (seed : ℤ) (h : 0 ≤ seed) :
    RNG.hash seed = Int.tmod (RNG.a * seed + RNG.c) RNG.m ∧
    rand01 seed = (RNG.hash seed, (RNG.scale (RNG.hash seed) + 1) / 2) ∧
    0 ≤ (rand01 seed).2 ∧ (rand01 seed).2 ≤ 1 :=
  ⟨rfl, rfl, (rand01_bounds h).1, (rand01_bounds h).2⟩

theorem prng_contract_witness :
    (0 : ℤ) ≤ 7 ∧ (0 ≤ (rand01 7).2 ∧ (rand01 7).2 ≤ 1) :=
  ⟨by norm_num, (prng_contract 7 (by norm_num)).2.2⟩

lemma collided_eq_any (s : State) : collidedB s = hitOrder.any (hitCond s) := by
  simp [collidedB, hitOrder, hitCond, Bool.or_assoc]

/-- C4: in every physics step the four collision conditions are checked in
the fixed order top-boundary, bottom-boundary, obstacle-top,
obstacle-bottom; the resulting position and velocity come from the first
condition that holds, and the collided flag is the disjunction of all four
conditions regardless of which one determined the outcome. -/
theorem collision_priority (s : State) :
    (handleCollisions s).collided = hitOrder.any (hitCond s) ∧
    ((handleCollisions s).y, (handleCollisions s).vy) =
      (match firstHit s with
       | some k => (hitY s k, (bounce s (hitDir k)).1)
       | none => (yClamped s, noHitVy s)) := by
  cases h1 : hitTopB s with
  | true =>
    rw [handleCollisions_top h1, firstHit_top h1]
    exact ⟨collided_eq_any s, rfl⟩
  | false =>
    cases h2 : hitBottomB s with
    | true =>
      rw [handleCollisions_bottom h1 h2, firstHit_bottom h1 h2]
      exact ⟨collided_eq_any s, rfl⟩
    | false =>
      cases h3 : hitPipeTopB s with
      | true =>
        rw [handleCollisions_pipeTop h1 h2 h3, firstHit_pipeTop h1 h2 h3]
        exact ⟨collided_eq_any s, rfl⟩
      | false =>
        cases h4 : hitPipeBottomB s with
        | true =>
          rw [handleCollisions_pipeBottom h1 h2 h3 h4, firstHit_pipeBottom h1 h2 h3 h4]
          exact ⟨collided_eq_any s, rfl⟩
        | false =>
          rw [handleCollisions_none h1 h2 h3 h4, firstHit_none h1 h2 h3 h4]
          exact ⟨collided_eq_any s, rfl⟩

/-- C5: whenever a collision condition holds in a physics step, exactly one
random magnitude is drawn (the seed advances by exactly one hash step),
that magnitude lies in [BOUNCE_MIN, BOUNCE_MAX], the resulting velocity is
signed away from the surface hit (its product with the bounce sign of the
surface is the positive magnitude), and the resulting position is snapped
to (or just inside) the boundary or obstacle edge that was hit. -/
theorem bounce_outcome (s : State) (hseed : 0 ≤ s.seed) (hcol : collidedB s = true) :
    ∃ k, firstHit s = some k ∧
      (handleCollisions s).seed = RNG.hash s.seed ∧
      (handleCollisions s).y = hitY s k ∧
      (handleCollisions s).vy = hitDir k * |(randInRange s.seed BOUNCE_MIN BOUNCE_MAX).2| ∧
      BOUNCE_MIN ≤ hitDir k * (handleCollisions s).vy ∧
      hitDir k * (handleCollisions s).vy ≤ BOUNCE_MAX := by
  obtain ⟨hm1, hm2⟩ := bounce_mag_bounds hseed
  cases h1 : hitTopB s with
  | true =>
    refine ⟨.top, firstHit_top h1, ?_⟩
    rw [handleCollisions_top h1]
    refine ⟨bounce_snd s 1, rfl, bounce_fst s 1, ?_, ?_⟩
    · simpa [bounce_fst, hitDir] using hm1
    · simpa [bounce_fst, hitDir] using hm2
  | false =>
    cases h2 : hitBottomB s with
    | true =>
      refine ⟨.bottom, firstHit_bottom h1 h2, ?_⟩
      rw [handleCollisions_bottom h1 h2]
      refine ⟨bounce_snd s (-1), rfl, bounce_fst s (-1), ?_, ?_⟩
      · simpa [bounce_fst, hitDir] using hm1
      · simpa [bounce_fst, hitDir] using hm2
    | false =>
      cases h3 : hitPipeTopB s with
      | true =>
        refine ⟨.pipeTop, firstHit_pipeTop h1 h2 h3, ?_⟩
        rw [handleCollisions_pipeTop h1 h2 h3]
        refine ⟨bounce_snd s 1, rfl, bounce_fst s 1, ?_, ?_⟩
        · simpa [bounce_fst, hitDir] using hm1
        · simpa [bounce_fst, hitDir] using hm2
      | false =>
        cases h4 : hitPipeBottomB s with
        | true =>
          refine ⟨.pipeBottom, firstHit_pipeBottom h1 h2 h3 h4, ?_⟩
          rw [handleCollisions_pipeBottom h1 h2 h3 h4]
          refine ⟨bounce_snd s (-1), rfl, bounce_fst s (-1), ?_, ?_⟩
          · simpa [bounce_fst, hitDir] using hm1
          · simpa [bounce_fst, hitDir] using hm2
        | false =>
          rw [show collidedB s = false by simp [collidedB, h1, h2, h3, h4]] at hcol
          exact absurd hcol (by simp)

/-- A concrete state whose tick hits the top boundary: the bird is at the
minimum height moving up at full speed. -/
def sTopC : State :=
  { mkInitial 7 2 [] with bird := { pos := { x := 180, y := 15 }, velY := -600 } }

theorem bounce_outcome_witness :
    ((0 : ℤ) ≤ sTopC.seed ∧ collidedB sTopC = true) ∧
    (∃ k, firstHit sTopC = some k ∧
      (handleCollisions sTopC).seed = RNG.hash sTopC.seed ∧
      (handleCollisions sTopC).y = hitY sTopC k ∧
      (handleCollisions sTopC).vy =
        hitDir k * |(randInRange sTopC.seed BOUNCE_MIN BOUNCE_MAX).2| ∧
      BOUNCE_MIN ≤ hitDir k * (handleCollisions sTopC).vy ∧
      hitDir k * (handleCollisions sTopC).vy ≤ BOUNCE_MAX) := by
  have hseed : (0 : ℤ) ≤ sTopC.seed := by norm_num [sTopC, mkInitial]
  have hcol : collidedB sTopC = true := by
    norm_num [collidedB, hitTopB, yNextRaw, clampedVy, dt, TICK_RATE_MS, GRAVITY,
      TERMINAL_VEL, minY, BIRD_HEIGHT, sTopC, mkInitial, max_def, min_def]
  exact ⟨⟨hseed, hcol⟩, bounce_outcome sTopC hseed hcol⟩

/-! ### The velocity and seed invariant -/

lemma clampedVy_bound (s : State) : |clampedVy s| ≤ TERMINAL_VEL := by
  rw [abs_le, clampedVy]
  constructor
  · exact le_max_left _ _
  · exact max_le (by norm_num [TERMINAL_VEL]) (min_le_left _ _)

lemma noHitVy_bound (s : State) : |noHitVy s| ≤ TERMINAL_VEL := by
  rw [noHitVy]
  split
  · norm_num [TERMINAL_VEL]
  · exact clampedVy_bound s

/-- The collision step either passes through without a draw or bounces with
sign plus or minus one and the seed advanced one hash step. -/
lemma handleCollisions_cases (s : State) :
    handleCollisions s =
      { y := yClamped s, vy := noHitVy s, seed := s.seed, collided := collidedB s } ∨
    ∃ dir : ℚ, (dir = 1 ∨ dir = -1) ∧ ∃ yv : ℚ,
      handleCollisions s =
        { y := yv, vy := (bounce s dir).1, seed := (bounce s dir).2,
          collided := collidedB s } := by
  cases h1 : hitTopB s with
  | true => exact Or.inr ⟨1, Or.inl rfl, minY, handleCollisions_top h1⟩
  | false =>
    cases h2 : hitBottomB s with
    | true => exact Or.inr ⟨-1, Or.inr rfl, maxY, handleCollisions_bottom h1 h2⟩
    | false =>
      cases h3 : hitPipeTopB s with
      | true =>
        exact Or.inr ⟨1, Or.inl rfl, min (yClamped s + 1) maxY,
          handleCollisions_pipeTop h1 h2 h3⟩
      | false =>
        cases h4 : hitPipeBottomB s with
        | true =>
          exact Or.inr ⟨-1, Or.inr rfl, max (yClamped s - 1) minY,
            handleCollisions_pipeBottom h1 h2 h3 h4⟩
        | false => exact Or.inl (handleCollisions_none h1 h2 h3 h4)

lemma handleCollisions_seed_nonneg {s : State} (h : 0 ≤ s.seed) :
    0 ≤ (handleCollisions s).seed := by
  rcases handleCollisions_cases s with hc | ⟨dir, _, yv, hc⟩
  · rw [hc]
    exact h
  · rw [hc]
    exact hash_nonneg h

lemma handleCollisions_vy_bound {s : State} (h : 0 ≤ s.seed) :
    |(handleCollisions s).vy| ≤ TERMINAL_VEL := by
  obtain ⟨hm1, hm2⟩ := bounce_mag_bounds h
  rcases handleCollisions_cases s with hc | ⟨dir, hdir, yv, hc⟩
  · rw [hc]
    exact noHitVy_bound s
  · rw [hc]
    show |(bounce s dir).1| ≤ TERMINAL_VEL
    rw [bounce_fst, abs_mul, abs_abs]
    have hdir1 : |dir| = 1 := by
      rcases hdir with h1 | h1 <;> rw [h1] <;> norm_num
    rw [hdir1, one_mul]
    calc |(randInRange s.seed BOUNCE_MIN BOUNCE_MAX).2| ≤ BOUNCE_MAX := hm2
      _ ≤ TERMINAL_VEL := by norm_num [BOUNCE_MAX, TERMINAL_VEL]

lemma reachable_inv {s : State} (h : Reachable s) :
    0 ≤ s.seed ∧ |s.bird.velY| ≤ TERMINAL_VEL := by
  induction h with
  | init seed tp g h0 h1 =>
    refine ⟨h0, ?_⟩
    show |(0 : ℚ)| ≤ TERMINAL_VEL
    norm_num [TERMINAL_VEL]
  | tickStep hr ih =>
    rename_i s1
    rcases ih with ⟨ihs, ihv⟩
    by_cases hend : s1.gameEnd = true
    · rw [tick_of_ended hend]
      exact ⟨ihs, ihv⟩
    · rw [Bool.not_eq_true] at hend
      constructor
      · rw [tick_seed_eq hend]
        exact handleCollisions_seed_nonneg ihs
      · rw [tick_velY_eq hend]
        exact handleCollisions_vy_bound ihs
  | flapStep hr ih =>
    refine ⟨ih.1, ?_⟩
    show |FLAP_VELOCITY| ≤ TERMINAL_VEL
    norm_num [FLAP_VELOCITY, TERMINAL_VEL]
  | spawnStep spec hr ih => exact ih

/-- C3: for every state reachable from an initial state by any sequence of
tick, flap and spawn reducers, the bird's vertical velocity satisfies
the bound |velY| ≤ TERMINAL_VEL = 600. -/
theorem velocity_bound {s : State} (h : Reachable s) :
    |s.bird.velY| ≤ TERMINAL_VEL :=
  (reachable_inv h).2

theorem velocity_bound_witness :
    Reachable (tick (flapR (mkInitial 7 2 []))) ∧
    |(tick (flapR (mkInitial 7 2 []))).bird.velY| ≤ TERMINAL_VEL :=
  have hr : Reachable (tick (flapR (mkInitial 7 2 []))) :=
    Reachable.tickStep (Reachable.flapStep (Reachable.init 7 2 [] (by norm_num) (by norm_num)))
  ⟨hr, velocity_bound hr⟩

/-! ### Lemmas about pipe motion, culling, passing and scoring -/

lemma movePipe_id (p : Pipe) : (movePipe p).id = p.id := rfl

lemma movePipe_passed (p : Pipe) : (movePipe p).passed = p.passed := rfl

lemma markPassed_id (bl : ℚ) (p : Pipe) : (markPassed bl p).id = p.id := by
  rw [markPassed]
  split <;> rfl

lemma markPassed_passed (bl : ℚ) (p : Pipe) :
    (markPassed bl p).passed = (p.passed || decide (p.x + PIPE_WIDTH < bl)) := by
  rw [markPassed]
  split
  · next hc => exact hc.symm
  · next hc =>
    rw [Bool.not_eq_true, Bool.or_eq_false_iff] at hc
    simp [hc.1, hc.2]

lemma contains_prevPassedIds {s : State} (hnd : (s.pipes.map Pipe.id).Nodup)
    {q : Pipe} (hq : q ∈ s.pipes) : (prevPassedIds s).contains q.id = q.passed := by
  cases hp : q.passed with
  | true =>
    have hmem : q.id ∈ prevPassedIds s := by
      rw [prevPassedIds, List.mem_map]
      exact ⟨q, List.mem_filter.mpr ⟨hq, hp⟩, rfl⟩
    exact (List.elem_iff.mpr hmem)
  | false =>
    have hmem : q.id ∉ prevPassedIds s := by
      rw [prevPassedIds, List.mem_map]
      rintro ⟨q2, hq2, hid⟩
      rw [List.mem_filter] at hq2
      have heq := List.inj_on_of_nodup_map hnd hq2.1 hq hid
      rw [heq, hp] at hq2
      exact Bool.false_ne_true hq2.2
    cases hc : (prevPassedIds s).contains q.id with
    | false => rfl
    | true => exact absurd (List.elem_iff.mp hc) hmem

lemma bool_newly_passed (a b : Bool) : ((a || b) && !a) = (!a && b) := by
  cases a <;> cases b <;> rfl

lemma newlyPassedCount_eq {s : State} (hnd : (s.pipes.map Pipe.id).Nodup) :
    newlyPassedCount s =
      ((keptPipes s).filter fun p =>
        !p.passed && decide (p.x + PIPE_WIDTH < birdLeft s)).length := by
  rw [newlyPassedCount, updatedPipes, List.filter_map, List.length_map]
  congr 1
  apply List.filter_congr
  intro p hp
  rw [keptPipes, List.mem_filter] at hp
  obtain ⟨hmm, _⟩ := hp
  rw [List.mem_map] at hmm
  obtain ⟨q, hq, rfl⟩ := hmm
  show ((markPassed (birdLeft s) (movePipe q)).passed &&
      !((prevPassedIds s).contains (markPassed (birdLeft s) (movePipe q)).id)) = _
  rw [markPassed_passed, markPassed_id, movePipe_id, contains_prevPassedIds hnd hq]
  exact bool_newly_passed q.passed _

/-- C6: for every non-ended state with distinct obstacle ids, one tick
leaves each obstacle's passed flag monotone and sets it exactly when the
moved obstacle's right edge is left of the bird's left edge, and the score
grows by exactly the number of obstacles whose passed flag flipped
false to true during the tick; hence the score never decreases. -/
theorem scoring_exact (s : State) (hend : s.gameEnd = false)
    (hnd : (s.pipes.map Pipe.id).Nodup) :
    (∀ p2 ∈ (tick s).pipes, ∃ p ∈ s.pipes, p2.id = p.id ∧
        p2.passed = (p.passed || decide ((movePipe p).x + PIPE_WIDTH < birdLeft s))) ∧
    (tick s).score = s.score +
      ((keptPipes s).filter fun p =>
        !p.passed && decide (p.x + PIPE_WIDTH < birdLeft s)).length ∧
    s.score ≤ (tick s).score := by
  have hscore : (tick s).score = s.score +
      ((keptPipes s).filter fun p =>
        !p.passed && decide (p.x + PIPE_WIDTH < birdLeft s)).length := by
    rw [tick_score_eq hend, newlyPassedCount_eq hnd]
  refine ⟨?_, hscore, ?_⟩
  · intro p2 hp2
    rw [tick_pipes_eq hend, updatedPipes, List.mem_map] at hp2
    obtain ⟨p, hpk, rfl⟩ := hp2
    rw [keptPipes, List.mem_filter] at hpk
    obtain ⟨hmm, _⟩ := hpk
    rw [List.mem_map] at hmm
    obtain ⟨q, hq, rfl⟩ := hmm
    refine ⟨q, hq, ?_, ?_⟩
    · rw [markPassed_id, movePipe_id]
    · rw [markPassed_passed, movePipe_passed]
  · rw [hscore]
    have : (0 : ℤ) ≤ (((keptPipes s).filter fun p =>
        !p.passed && decide (p.x + PIPE_WIDTH < birdLeft s)).length : ℤ) :=
      Int.natCast_nonneg _
    linarith

/-- A concrete pipe about to be passed by the bird. -/
def pPassC : Pipe := { id := 3, x := 110, gapY := 200, gapH := 200, passed := false }

/-- A concrete non-ended state with one pipe. -/
def sPassC : State := { mkInitial 7 9 [] with pipes := [pPassC] }

theorem scoring_exact_witness :
    (sPassC.gameEnd = false ∧ (sPassC.pipes.map Pipe.id).Nodup) ∧
    ((∀ p2 ∈ (tick sPassC).pipes, ∃ p ∈ sPassC.pipes, p2.id = p.id ∧
        p2.passed = (p.passed ||
          decide ((movePipe p).x + PIPE_WIDTH < birdLeft sPassC))) ∧
    (tick sPassC).score = sPassC.score +
      ((keptPipes sPassC).filter fun p =>
        !p.passed && decide (p.x + PIPE_WIDTH < birdLeft sPassC)).length ∧
    sPassC.score ≤ (tick sPassC).score) := by
  have h1 : sPassC.gameEnd = false := rfl
  have h2 : (sPassC.pipes.map Pipe.id).Nodup := by
    show ([3] : List ℤ).Nodup
    decide
  exact ⟨⟨h1, h2⟩, scoring_exact sPassC h1 h2⟩

/-- C7: for every non-ended state with distinct obstacle ids, every
obstacle with x ≤ -PIPE_WIDTH is absent after one tick, and an obstacle is
retained by the tick exactly when its moved right edge is still right of
the left screen boundary. -/
theorem obstacle_culling (s : State) (hend : s.gameEnd = false)
    (hnd : (s.pipes.map Pipe.id).Nodup) :
    (∀ p ∈ s.pipes, p.x ≤ -PIPE_WIDTH → ∀ p2 ∈ (tick s).pipes, p2.id ≠ p.id) ∧
    (∀ p ∈ s.pipes,
      (0 < (movePipe p).x + PIPE_WIDTH ↔ ∃ p2 ∈ (tick s).pipes, p2.id = p.id)) := by
  have hmem : ∀ p ∈ s.pipes,
      ((∃ p2 ∈ (tick s).pipes, p2.id = p.id) ↔ 0 < (movePipe p).x + PIPE_WIDTH) := by
    intro p hp
    constructor
    · rintro ⟨p2, hp2, hid⟩
      rw [tick_pipes_eq hend, updatedPipes, List.mem_map] at hp2
      obtain ⟨r, hrk, rfl⟩ := hp2
      rw [keptPipes, List.mem_filter] at hrk
      obtain ⟨hmm, hcond⟩ := hrk
      rw [List.mem_map] at hmm
      obtain ⟨q, hq, rfl⟩ := hmm
      rw [markPassed_id, movePipe_id] at hid
      have hqp := List.inj_on_of_nodup_map hnd hq hp hid
      subst hqp
      rw [decide_eq_true_iff] at hcond
      show 0 < (movePipe q).x + PIPE_WIDTH
      have : (0 : ℚ) < 50 := by norm_num
      calc (0 : ℚ) = -PIPE_WIDTH + PIPE_WIDTH := by norm_num [PIPE_WIDTH]
        _ < (movePipe q).x + PIPE_WIDTH := by linarith
    · intro hx
      refine ⟨markPassed (birdLeft s) (movePipe p), ?_, by rw [markPassed_id, movePipe_id]⟩
      rw [tick_pipes_eq hend, updatedPipes, List.mem_map]
      refine ⟨movePipe p, ?_, rfl⟩
      rw [keptPipes, List.mem_filter]
      refine ⟨List.mem_map.mpr ⟨p, hp, rfl⟩, ?_⟩
      rw [decide_eq_true_iff]
      linarith
  constructor
  · intro p hp hx p2 hp2 hid
    have h1 : 0 < (movePipe p).x + PIPE_WIDTH := (hmem p hp).1 ⟨p2, hp2, hid⟩
    have h2 : (movePipe p).x + PIPE_WIDTH ≤ -(PIPE_SPEED_PX_S * dt) := by
      show p.x - PIPE_SPEED_PX_S * dt + PIPE_WIDTH ≤ _
      linarith
    have hpos : 0 < PIPE_SPEED_PX_S * dt := by
      norm_num [PIPE_SPEED_PX_S, dt, TICK_RATE_MS]
    linarith
  · intro p hp
    exact (hmem p hp).symm

/-- A concrete pipe already past the left screen boundary. -/
def pCullC : Pipe := { id := 4, x := -50, gapY := 200, gapH := 100, passed := true }

/-- A concrete non-ended state with one off-screen pipe. -/
def sCullC : State := { mkInitial 7 9 [] with pipes := [pCullC] }

theorem obstacle_culling_witness :
    (sCullC.gameEnd = false ∧ (sCullC.pipes.map Pipe.id).Nodup) ∧
    ((∀ p ∈ sCullC.pipes, p.x ≤ -PIPE_WIDTH →
        ∀ p2 ∈ (tick sCullC).pipes, p2.id ≠ p.id) ∧
    (∀ p ∈ sCullC.pipes,
      (0 < (movePipe p).x + PIPE_WIDTH ↔ ∃ p2 ∈ (tick sCullC).pipes, p2.id = p.id))) := by
  have h1 : sCullC.gameEnd = false := rfl
  have h2 : (sCullC.pipes.map Pipe.id).Nodup := by
    show ([4] : List ℤ).Nodup
    decide
  exact ⟨⟨h1, h2⟩, obstacle_culling sCullC h1 h2⟩

/-- C9: for every schedule text, the parser skips the first (header) line
and maps each subsequent line, in row order, to one parsed row whose
gap center and gap height are the first two comma-separated fields scaled
by the canvas height and whose spawn time is the third field scaled to
milliseconds; a malformed numeric field yields the not-a-number value in
the resulting row rather than an error. -/
theorem schedule_parsing (csv : List Char) :
    (parseMapCsv csv).length = (splitLines (jsTrim csv)).length - 1 ∧
    (∀ i : ℕ, (parseMapCsv csv).get? i =
      ((splitLines (jsTrim csv)).get? (i + 1)).map lineToSpec) ∧
    (∀ line : List Char,
      (lineToSpec line).gapY = jsMul (fieldAt (splitOnChar ',' line) 0) CANVAS_HEIGHT ∧
      (lineToSpec line).gapH = jsMul (fieldAt (splitOnChar ',' line) 1) CANVAS_HEIGHT ∧
      (lineToSpec line).timeMs = jsMul (fieldAt (splitOnChar ',' line) 2) 1000 ∧
      (fieldAt (splitOnChar ',' line) 0 = none → (lineToSpec line).gapY = none)) := by
  refine ⟨?_, ?_, ?_⟩
  · rw [parseMapCsv, List.length_map, List.length_drop]
  · intro i
    rw [parseMapCsv, List.get?_map, List.get?_drop, Nat.add_comm]
  · intro line
    refine ⟨rfl, rfl, rfl, fun h => ?_⟩
    show jsMul (fieldAt (splitOnChar ',' line) 0) CANVAS_HEIGHT = none
    rw [h]
    rfl

/-- A concrete schedule text with a header, one well-formed row and one
row whose first field is malformed. -/
def csvC : List Char := "gap_y,gap_height,time\n0.5,0.25,1.5\nabc,0.5,2".toList

/-- The malformed row of the concrete schedule text. -/
def lineC : List Char := "abc,0.5,2".toList

theorem schedule_parsing_witness :
    ((parseMapCsv csvC).get? 0 = ((splitLines (jsTrim csvC)).get? 1).map lineToSpec) ∧
    (fieldAt (splitOnChar ',' lineC) 0 = none ∧ (lineToSpec lineC).gapY = none) :=
  ⟨(schedule_parsing csvC).2.1 0,
   rfl, ((schedule_parsing csvC).2.2 lineC).2.2.2 rfl⟩

theorem seed_frame_effect_witness :
    (mkInitial 7 2 []).gameEnd = false ∧
    (tick (mkInitial 7 2 [])).seed =
      if collidedB (mkInitial 7 2 []) then RNG.hash (mkInitial 7 2 []).seed
      else (mkInitial 7 2 []).seed :=
  ⟨rfl, seed_frame_effect (mkInitial 7 2 []) rfl⟩
